import Mathlib

/-
Verification of the git-mcp-server repository against its specification.

The Python sources are shallowly embedded: pure helpers become Lean
functions on `List Char` / `String`; functions that raise exceptions
return `Except String`; the module-level singleton and the calls into the
GitPython layer are made explicit as state records and "world" records
describing the outcomes of the external git calls.
-/

set_option autoImplicit false

namespace GitMcp

/-! ### String helpers modelling the Python primitives used by the sources -/

/-- Python `str.lower()` restricted to its ASCII behaviour (the keywords
matched by the sources are all ASCII). -/
def pyLower (s : String) : String := String.mk (s.data.map Char.toLower)

/-- Boolean list-prefix test. -/
def listPrefix : List Char → List Char → Bool
  | [], _ => true
  | _ :: _, [] => false
  | a :: as, b :: bs => (a = b) && listPrefix as bs

/-- Boolean list-infix test: `needle` occurs contiguously in the second list. -/
def listInfix (needle : List Char) : List Char → Bool
  | [] => needle.isEmpty
  | c :: t => listPrefix needle (c :: t) || listInfix needle t

/-- Python `needle in hay` substring containment. -/
def strContains (hay needle : String) : Bool := listInfix needle.data hay.data

/-- The set of characters Python treats as whitespace for `str` patterns:
`\s` in `re` and the default `str.strip()` / `str.isspace()` set. -/
def pyIsSpace (c : Char) : Bool :=
  let n := c.toNat
  n = 0x20 || (0x9 ≤ n && n ≤ 0xd) || (0x1c ≤ n && n ≤ 0x1f) || n = 0x85 ||
  n = 0xa0 || n = 0x1680 || (0x2000 ≤ n && n ≤ 0x200a) || n = 0x2028 ||
  n = 0x2029 || n = 0x202f || n = 0x205f || n = 0x3000

/-- Python `str.strip()` on the character list of a string. -/
def pyStrip (l : List Char) : List Char :=
  ((l.dropWhile pyIsSpace).reverse.dropWhile pyIsSpace).reverse

/-- An apostrophe character, used to spell string constants of the source
without a literal quote character. -/
def apos : Char := Char.ofNat 39

/-! ### utils/errors.py -/

/-- The exception classes distinguished by `handle_git_error`
(isinstance tests on `InvalidGitRepositoryError`, `GitCommandError`,
`ValueError`, and a catch-all), each carrying its `str(e)` rendering. -/
inductive PyExc where
  | invalidGitRepositoryError (msg : String)
  | gitCommandError (msg : String)
  | valueError (msg : String)
  | other (msg : String)
deriving DecidableEq

/-- `str(e)` of the exception. -/
def PyExc.msg : PyExc → String
  | .invalidGitRepositoryError m => m
  | .gitCommandError m => m
  | .valueError m => m
  | .other m => m

/-- The `GitError` frozen dataclass of utils/errors.py. -/
structure GitError where
  error_type : String
  message : String
  suggestion : String
  command : Option String := none
deriving DecidableEq

/-- Keyword test of the `auth_failed` branch of `handle_git_error`. -/
def authKeyword (low : String) : Bool :=
  strContains low "authentication failed" || strContains low "permission denied"

/-- Keyword test of the `merge_conflict` branch of `handle_git_error`. -/
def conflictKeyword (low : String) : Bool :=
  strContains low "conflict" || strContains low "merge"

/-- Keyword test of the `detached_head` branch of `handle_git_error`. -/
def detachedKeyword (low : String) : Bool :=
  strContains low "detached head"

/-- Keyword test of the `nothing_to_commit` branch of `handle_git_error`. -/
def nothingKeyword (low : String) : Bool :=
  strContains low "nothing to commit"

/-- Keyword test of the `no_remote` branch of `handle_git_error`. -/
def noRemoteKeyword (low : String) : Bool :=
  strContains low "no configured push destination" || strContains low "no upstream branch"

/-- `handle_git_error` of utils/errors.py: converts git exceptions to
structured errors, classifying `GitCommandError` by case-insensitive
keyword matching, in source order. -/
def handle_git_error (e : PyExc) : GitError :=
  match e with
  | .invalidGitRepositoryError msg =>
    { error_type := "not_a_repo"
      message := msg
      suggestion := "Navigate to a git repository before running git commands."
      command := some "git status" }
  | .gitCommandError msg =>
    let low := pyLower msg
    if authKeyword low then
      { error_type := "auth_failed"
        message := "Git authentication failed"
        suggestion := "Check your git credentials. For HTTPS, verify your personal access token. For SSH, ensure your SSH key is configured correctly."
        command := some "git config --list | grep credential" }
    else if conflictKeyword low then
      { error_type := "merge_conflict"
        message := "Merge conflict detected"
        suggestion := "Resolve merge conflicts in affected files, then stage and commit the resolution."
        command := some "git status" }
    else if detachedKeyword low then
      { error_type := "detached_head"
        message := "Repository is in detached HEAD state"
        suggestion := "Create a new branch or checkout an existing branch to continue."
        command := some "git checkout -b new-branch-name" }
    else if nothingKeyword low then
      { error_type := "nothing_to_commit"
        message := "No changes to commit"
        suggestion := "Make changes to files before committing, or use git status to see current state."
        command := some "git status" }
    else if noRemoteKeyword low then
      { error_type := "no_remote"
        message := "No remote repository configured"
        suggestion := "Set up a remote repository or specify the remote branch when pushing. Use git remote add origin <url> to add a remote."
        command := some "git remote -v" }
    else
      { error_type := "git_command_failed"
        message := "Git command failed: " ++ msg
        suggestion := "Check the error message above for details. Run git status to see repository state."
        command := some "git status" }
  | .valueError msg =>
    { error_type := "validation_error"
      message := msg
      suggestion := "Check the error message and verify your input parameters."
      command := none }
  | .other msg =>
    { error_type := "unknown_error"
      message := "Unexpected error: " ++ msg
      suggestion := "Check the error message above. If the issue persists, please report it."
      command := some "git status" }

/-- The fixed taxonomy of `error_type` values. -/
def errorTypes : List String :=
  ["not_a_repo", "auth_failed", "merge_conflict", "detached_head",
   "nothing_to_commit", "no_remote", "git_command_failed", "validation_error",
   "unknown_error"]

/-! ### utils/git_client.py: validation helpers -/

/-- The special characters of the branch-name character class
`[\s~^:?*\[\]\\]` besides whitespace. -/
def branchSpecialChars : List Char := ['~', '^', ':', '?', '*', '[', ']', '\\']

/-- One character matching the class `[\s~^:?*\[\]\\]`. -/
def branchBadChar (c : Char) : Bool :=
  pyIsSpace c || decide (c ∈ branchSpecialChars)

/-- Occurrence of the alternative `\.{2}`: two consecutive dots. -/
def hasDoubleDot : List Char → Bool
  | c1 :: c2 :: rest => (c1 = '.' && c2 = '.') || hasDoubleDot (c2 :: rest)
  | _ => false

/-- `re.search(r"[\s~^:?*\[\]\\]|\.{2}", l)` succeeds iff some character
matches the class or ".." occurs somewhere. -/
def branchInvalidSearch (l : List Char) : Bool :=
  l.any branchBadChar || hasDoubleDot l

/-- `validate_branch_name` of utils/git_client.py; raising `ValueError` is
modelled as `Except.error`. -/
def validate_branch_name (branch_name : String) : Except String Unit :=
  if branch_name.data.isEmpty || (pyStrip branch_name.data).isEmpty then
    Except.error "Branch name cannot be empty"
  else if branchInvalidSearch branch_name.data then
    Except.error ("Invalid branch name: " ++ branch_name ++
      ". Cannot contain spaces or special characters")
  else
    Except.ok ()

/-- A lowercase ASCII letter or digit, the class `[a-z0-9]`. -/
def isLowerAlnum (c : Char) : Bool :=
  ('a' ≤ c && c ≤ 'z') || ('0' ≤ c && c ≤ '9')

/-- Deterministic automaton for the regular expression
`[a-z0-9]+(-[a-z0-9]+)*` run over a whole word: `seen` records whether the
current segment already holds at least one character. -/
def descRun : List Char → Bool → Bool
  | [], seen => seen
  | c :: rest, seen =>
    if isLowerAlnum c then descRun rest true
    else if c = '-' then seen && descRun rest false
    else false

/-- Membership of a whole word in the language of `[a-z0-9]+(-[a-z0-9]+)*`. -/
def descMatchLang (l : List Char) : Bool := descRun l false

/-- Models `re.match(r"^[a-z0-9]+(-[a-z0-9]+)*$", s)` of Python: `$`
matches at the end of the string or just before a newline at the end of
the string, so a single trailing newline after a matching prefix is also
accepted. -/
def pyDescMatch (l : List Char) : Bool :=
  descMatchLang l || (l.getLast? == some '\n' && descMatchLang l.dropLast)

/-- `validate_description` of utils/git_client.py. -/
def validate_description (description : String) : Except String Unit :=
  if pyDescMatch description.data then
    Except.ok ()
  else
    Except.error ("Description must be lowercase with hyphens (e.g. " ++
      String.mk [apos] ++ "add-feature" ++ String.mk [apos] ++ "). Got: " ++
      description)

/-- The language of the regular expression `[a-z0-9]+(-[a-z0-9]+)*`, read
declaratively from the spec: nonempty lowercase-alphanumeric segments
separated by single hyphens. -/
inductive DescLang : List Char → Prop
  | seg (l : List Char) (h1 : l ≠ []) (h2 : ∀ c ∈ l, isLowerAlnum c = true) :
      DescLang l
  | more (l r : List Char) (h1 : l ≠ []) (h2 : ∀ c ∈ l, isLowerAlnum c = true)
      (h3 : DescLang r) : DescLang (l ++ '-' :: r)

/-! ### utils/git_client.py: repository-handle singleton -/

/-- A GitPython `Repo` object, abstracted to the repository root it refers
to; handles discovered at different times are distinguished by `stamp`. -/
structure Repo where
  root : String
  stamp : Nat := 0
deriving DecidableEq

/-- The module-level mutable state of utils/git_client.py: the
`_repo_instance` singleton slot. -/
structure GitClientState where
  repo_instance : Option Repo
deriving DecidableEq

/-- The environment of `get_repo`: the current working directory and the
outcome of `Repo(cwd, search_parent_directories=True)` (`none` models a
raised `InvalidGitRepositoryError`). -/
structure RepoWorld where
  cwd : String
  discover : String → Option Repo

/-- Result of a `get_repo` call: the returned handle or raised error, the
state of the singleton slot afterwards, and whether repository discovery
(the `Repo(...)` constructor) was performed during the call. -/
structure GetRepoOut where
  result : Except String Repo
  state : GitClientState
  discovered : Bool

/-- `get_repo` of utils/git_client.py: returns the cached instance when
present (no discovery), otherwise discovers from the current working
directory, caching on success and raising `ValueError` on failure. -/
def get_repo (w : RepoWorld) (s : GitClientState) : GetRepoOut :=
  match s.repo_instance with
  | some r => ⟨Except.ok r, s, false⟩
  | none =>
    match w.discover w.cwd with
    | some r => ⟨Except.ok r, ⟨some r⟩, true⟩
    | none =>
      ⟨Except.error ("Not a git repository: " ++ w.cwd ++
        " Please run this tool from within a git repository."), s, true⟩

/-- `reset_repo` of utils/git_client.py: unconditionally clears the cached
singleton; it is total (never fails). -/
def reset_repo (_s : GitClientState) : GitClientState := ⟨none⟩

/-! ### Changed-file collection of tools/remote.py and tools/sync.py -/

/-- One GitPython tree-diff entry: `a_path` is the path on the old (a)
side, `b_path` the path on the new (b) side; either may be absent
(added or deleted files). -/
structure DiffEntry where
  a_path : Option String
  b_path : Option String
deriving DecidableEq

/-- Python truthiness of an optional string: `None` and the empty string
are falsy. -/
def pyTruthy (o : Option String) : Bool :=
  match o with
  | some s => !s.data.isEmpty
  | none => false

/-- Python `a or b`. -/
def pyOr (a b : Option String) : Option String :=
  if pyTruthy a then a else b

/-- The per-entry path chosen by `{d.a_path or d.b_path for d in diff if
d.a_path or d.b_path}` in git_pull and git_sync_with_main: the old path,
falling back to the new path, kept only when truthy. -/
def entryPath (d : DiffEntry) : Option String :=
  if pyTruthy (pyOr d.a_path d.b_path) then pyOr d.a_path d.b_path else none

/-- The deduplicated changed-file set (a Python set, modelled as a
duplicate-free list whose order is irrelevant). -/
def files_changed (diff : List DiffEntry) : List String :=
  (diff.filterMap entryPath).dedup

/-- Modelled from the claim wording, for comparison: take each entry's new
path and fall back to the old path only when the new path is absent. -/
def entryPathClaim (d : DiffEntry) : Option String :=
  match d.b_path with
  | some p => some p
  | none => d.a_path

/-- Changed-file set as the claim describes it (new path preferred). -/
def files_changed_claim (diff : List DiffEntry) : List String :=
  (diff.filterMap entryPathClaim).dedup

/-! ### tools/sync.py and tools/remote.py -/

/-- Wrap a string in single quotes, as the Python f-strings do. -/
def q (s : String) : String := String.mk [apos] ++ s ++ String.mk [apos]

/-- One observable call into the git layer performed by a tool
operation. An abort action records whether the abort command itself
failed (its exception is swallowed by the source). -/
inductive GitAction where
  | fetch
  | pull
  | merge
  | rebase
  | mergeAbort (failed : Bool)
  | rebaseAbort (failed : Bool)
deriving DecidableEq

/-- Whether an action is a merge/rebase abort. -/
def isAbortAction : GitAction → Bool
  | GitAction.mergeAbort _ => true
  | GitAction.rebaseAbort _ => true
  | _ => false

/-- The result record of `git_sync_with_main`. -/
structure SyncResultR where
  branch : String
  main_branch : String
  strategy : String
  sha_before : String
  sha_after : String
  commits_added : Nat
  up_to_date : Bool
  files_changed : List String
deriving DecidableEq

/-- Environment of one `git_sync_with_main` call: outcomes of the calls
into the git layer, in the order the source makes them. `none` in the
`Option` fields models the corresponding call raising an exception. -/
structure SyncWorld where
  repoResult : Except String Unit
  currentBranch : Except String String
  isDirty : Bool
  shaBefore : String
  fetchResult : Except String Unit
  commitsToAdd : Option Nat
  mergeResult : Except String Unit
  shaAfter : String
  diffResult : Option (List DiffEntry)
  recountResult : Option Nat
  abortFails : Bool

/-- `git_sync_with_main` of tools/sync.py, returning the raised error or
result record together with the trace of git actions performed. -/
def git_sync_with_main (w : SyncWorld) (main_branch strategy : String) :
    Except String SyncResultR × List GitAction :=
  if ¬ (strategy = "merge" ∨ strategy = "rebase") then
    (Except.error ("Invalid strategy " ++ q strategy ++ ". Must be " ++
      q "merge" ++ " or " ++ q "rebase" ++ "."), [])
  else
    match w.repoResult with
    | Except.error m => (Except.error m, [])
    | Except.ok () =>
      match w.currentBranch with
      | Except.error m => (Except.error m, [])
      | Except.ok current_branch =>
        if current_branch = main_branch then
          (Except.error ("Already on " ++ q main_branch ++
            " branch. Use git_pull() instead, or checkout a feature branch first."), [])
        else if w.isDirty then
          (Except.error "Cannot sync with uncommitted changes. Commit or stash changes first.",
            [])
        else
          let sha_before := w.shaBefore
          match w.fetchResult with
          | Except.error m =>
            (Except.error ("Failed to fetch from origin: " ++ m), [GitAction.fetch])
          | Except.ok () =>
            let commits_added := w.commitsToAdd.getD 0
            if w.commitsToAdd = some 0 then
              (Except.ok ⟨current_branch, main_branch, strategy, sha_before, sha_before,
                0, true, []⟩, [GitAction.fetch])
            else
              let act := if strategy = "merge" then GitAction.merge else GitAction.rebase
              match w.mergeResult with
              | Except.ok () =>
                let sha_after := w.shaAfter
                if sha_before ≠ sha_after then
                  let fc := match w.diffResult with
                    | some d => files_changed d
                    | none => []
                  let ca := if commits_added = 0 then
                      (match w.recountResult with
                        | some n => n
                        | none => 1)
                    else commits_added
                  (Except.ok ⟨current_branch, main_branch, strategy, sha_before, sha_after,
                    ca, decide (sha_before = sha_after), fc⟩, [GitAction.fetch, act])
                else
                  (Except.ok ⟨current_branch, main_branch, strategy, sha_before, sha_after,
                    commits_added, decide (sha_before = sha_after), []⟩,
                    [GitAction.fetch, act])
              | Except.error emsg =>
                let low := pyLower emsg
                if strContains low "conflict" || strContains low "merge" then
                  let abortAct := if strategy = "merge" then GitAction.mergeAbort w.abortFails
                    else GitAction.rebaseAbort w.abortFails
                  (Except.error ((if strategy = "merge" then "Merge" else "Rebase") ++
                    " conflict detected. Resolve conflicts manually, then stage and commit the resolution."),
                    [GitAction.fetch, act, abortAct])
                else
                  (Except.error ("Sync failed: " ++ emsg), [GitAction.fetch, act])

/-- The result record of `git_pull`. -/
structure PullResultR where
  branch : String
  remote : String
  sha_before : String
  sha_after : String
  commits_pulled : Nat
  files_changed : List String
  up_to_date : Bool
deriving DecidableEq

/-- Environment of one `git_pull` call, in source order. -/
structure PullWorld where
  repoResult : Except String Unit
  currentBranch : Except String String
  remoteExists : Bool
  shaBefore : String
  isDirty : Bool
  pullResult : Except String Unit
  shaAfter : String
  commitsBetween : Nat
  diff : List DiffEntry

/-- `git_pull` of tools/remote.py, returning the raised error or result
record together with the trace of git actions performed. -/
def git_pull (w : PullWorld) (remote : String) (branch : Option String) :
    Except String PullResultR × List GitAction :=
  match w.repoResult with
  | Except.error m => (Except.error m, [])
  | Except.ok () =>
    match (match branch with
            | some b => Except.ok b
            | none => w.currentBranch) with
    | Except.error m => (Except.error m, [])
    | Except.ok target_branch =>
      if ¬ w.remoteExists then
        (Except.error ("Remote " ++ q remote ++ " not found. Use " ++
          q "git remote add" ++ " first."), [])
      else
        let sha_before := w.shaBefore
        if w.isDirty then
          (Except.error "Cannot pull with uncommitted changes. Commit or stash changes first.",
            [])
        else
          match w.pullResult with
          | Except.ok () =>
            let sha_after := w.shaAfter
            if sha_before = sha_after then
              (Except.ok ⟨target_branch, remote, sha_before, sha_after, 0, [], true⟩,
                [GitAction.pull])
            else
              (Except.ok ⟨target_branch, remote, sha_before, sha_after, w.commitsBetween,
                files_changed w.diff, false⟩, [GitAction.pull])
          | Except.error emsg =>
            let low := pyLower emsg
            if strContains low "authentication failed" || strContains low "permission denied" then
              (Except.error "Authentication failed. Ensure GITHUB_TOKEN is set in environment, or configure git credentials.",
                [GitAction.pull])
            else if strContains low "conflict" || strContains low "merge" then
              (Except.error "Merge conflict detected. Resolve conflicts manually, then stage and commit the resolution.",
                [GitAction.pull])
            else if strContains low "does not appear to be a git repository" then
              (Except.error ("Remote " ++ q remote ++ " is not a valid git repository."),
                [GitAction.pull])
            else if strContains low ("couldn" ++ String.mk [apos] ++ "t find remote ref") then
              (Except.error ("Branch " ++ q target_branch ++ " does not exist on remote " ++
                q remote ++ "."), [GitAction.pull])
            else
              (Except.error ("Pull failed: " ++ emsg), [GitAction.pull])

/-! ### Ahead/behind counting (tools/remote.py, tools/status.py)

`repo.iter_commits("X..Y")` enumerates the commits reachable from `Y` by
following parent links but not reachable from `X`. The commit DAG is
modelled with commits numbered so that every parent of a commit carries a
smaller number than the commit itself (parents are created first), which
bounds every parent chain by the number of commits. -/

/-- A commit graph: `n` commits named `0 .. n-1`; `parents c` lists the
parents of commit `c`. -/
structure CommitGraph where
  n : Nat
  parents : Nat → List Nat

/-- Well-formedness: every parent of a commit has a smaller number. -/
def wellFormed (g : CommitGraph) : Bool :=
  (List.range g.n).all (fun c => (g.parents c).all (fun p => decide (p < c)))

/-- Fuel-bounded graph search along parent links. -/
def reachFuel (g : CommitGraph) : Nat → Nat → Nat → Bool
  | 0, _, _ => false
  | fuel+1, c, t => (c == t) || (g.parents c).any (fun p => reachFuel g fuel p t)

/-- Commit `c` is reachable from ref `r` (fuel `g.n` suffices on
well-formed graphs since parent chains strictly decrease). -/
def reach (g : CommitGraph) (r c : Nat) : Bool := reachFuel g g.n r c

/-- Declarative reachability: the reflexive-transitive closure of the
parent relation. -/
def Reaches (g : CommitGraph) (a b : Nat) : Prop :=
  Relation.ReflTransGen (fun x y => y ∈ g.parents x) a b

/-- The set of commits reachable from ref `r`. -/
def reachSet (g : CommitGraph) (r : Nat) : Finset Nat :=
  (Finset.range g.n).filter (fun c => reach g r c = true)

/-- `repo.iter_commits(f"{excl}..{incl}")`: the commits reachable from
`incl` but not from `excl`. -/
def iter_commits_range (g : CommitGraph) (excl incl : Nat) : List Nat :=
  (List.range g.n).filter (fun c => reach g incl c && !(reach g excl c))

/-- `_count_commits_ahead_behind` of tools/remote.py: ahead counts the
commits reachable from the local ref but not the remote ref, behind the
converse; a missing ref (the except branch, taken when the remote branch
does not exist) yields `(0, 0)`. -/
def _count_commits_ahead_behind (g : CommitGraph) (branch remote : Option Nat) : Nat × Nat :=
  match branch, remote with
  | some l, some r =>
    ((iter_commits_range g r l).length, (iter_commits_range g l r).length)
  | _, _ => (0, 0)

/-- A five-commit example graph: commit 0 is the shared root, 1 and 2 sit
on one branch, 3 and 4 on the other. -/
def witnessGraph : CommitGraph :=
  ⟨5, fun c => match c with
    | 1 => [0]
    | 2 => [1]
    | 3 => [0]
    | 4 => [3]
    | _ => []⟩

/-! ### tools/commit.py -/

/-- `VALID_COMMIT_TYPES` of tools/commit.py. -/
def VALID_COMMIT_TYPES : List String :=
  ["feat", "fix", "docs", "style", "refactor", "perf", "test", "build",
   "ci", "chore", "revert", "merge"]

/-- `_validate_commit_type` of tools/commit.py. -/
def _validate_commit_type (commit_type : String) : Except String Unit :=
  if commit_type ∈ VALID_COMMIT_TYPES then
    Except.ok ()
  else
    Except.error ("Invalid commit type: " ++ commit_type)

/-- `_validate_message` of tools/commit.py. -/
def _validate_message (message : String) : Except String Unit :=
  if message.data.isEmpty || (pyStrip message.data).isEmpty then
    Except.error "Commit message cannot be empty"
  else
    Except.ok ()

/-- `_build_commit_message` of tools/commit.py: the conventional subject
line followed by the fixed attribution footer. -/
def _build_commit_message (commit_type message : String) : String :=
  commit_type ++ ": " ++ message ++ "\n\n" ++
    "🤖 Generated with [Claude Code](https://claude.com/claude-code)" ++ "\n\n" ++
    "Co-Authored-By: Claude <noreply@anthropic.com>"

/-- Python truthiness of the optional `files` argument: `None` and the
empty list are falsy. -/
def pyTruthyList (o : Option (List String)) : Bool :=
  match o with
  | some l => !l.isEmpty
  | none => false

/-- First file of the list missing from the working directory, if any
(`_validate_files_exist` raises at the first missing file). -/
def firstMissing (fileExists : String → Bool) (files : List String) : Option String :=
  files.find? (fun f => !fileExists f)

/-- The result record of `git_commit`. -/
structure CommitResultR where
  sha : String
  stats_files : Nat
  stats_insertions : Nat
  stats_deletions : Nat
  message : String
deriving DecidableEq

/-- Environment of one `git_commit` call, in source order: the direct
`Repo(Path.cwd(), search_parent_directories=True)` construction (`none`
models a raised `InvalidGitRepositoryError`, which propagates raw),
file existence in the working tree, dirtiness, the commit outcome, and
the commit statistics. -/
structure CommitWorld where
  discover : Option Repo
  fileExists : String → Bool
  isDirty : Bool
  commitResult : Except String String
  statsFiles : Nat
  statsInsertions : Nat
  statsDeletions : Nat

/-- `git_commit` of tools/commit.py. It constructs its repository object
directly from the current working directory and never calls `get_repo`
nor touches the `_repo_instance` singleton of utils/git_client.py. -/
def git_commit (w : CommitWorld) (type message : String)
    (files : Option (List String)) (_skip_hooks : Bool) : Except String CommitResultR :=
  match _validate_commit_type type with
  | Except.error m => Except.error m
  | Except.ok () =>
    match _validate_message message with
    | Except.error m => Except.error m
    | Except.ok () =>
      match w.discover with
      | none => Except.error "InvalidGitRepositoryError"
      | some _repo =>
        match (if pyTruthyList files then firstMissing w.fileExists (files.getD []) else none) with
        | some f => Except.error ("File not found: " ++ f)
        | none =>
          if ¬ w.isDirty then
            Except.error "No changes to commit"
          else
            match w.commitResult with
            | Except.error e => Except.error ("Failed to create commit: " ++ e)
            | Except.ok commit_sha =>
              Except.ok ⟨commit_sha, w.statsFiles, w.statsInsertions, w.statsDeletions,
                _build_commit_message type message⟩

/-- `git_commit` together with the singleton slot of utils/git_client.py:
the source never reads or writes `_repo_instance` in git_commit (it
constructs a `Repo` directly), so the slot passes through unchanged. -/
def git_commit_st (s : GitClientState) (w : CommitWorld) (type message : String)
    (files : Option (List String)) (skip_hooks : Bool) :
    Except String CommitResultR × GitClientState :=
  (git_commit w type message files skip_hooks, s)

end GitMcp

namespace GitMcp

/-! ### Claims C1 and C2 -/

/-- C1: for `GitCommandError` messages, `handle_git_error` classifies by the
fixed first-match priority auth_failed, then merge_conflict, then
detached_head, then nothing_to_commit, then no_remote, then
git_command_failed; in particular every message containing both
"authentication failed" and "conflict" (case-insensitively) yields
`auth_failed`, never `merge_conflict`. -/
theorem handle_git_error_priority (msg : String) :
    (authKeyword (pyLower msg) = true →
      (handle_git_error (PyExc.gitCommandError msg)).error_type = "auth_failed") ∧
    (authKeyword (pyLower msg) = false → conflictKeyword (pyLower msg) = true →
      (handle_git_error (PyExc.gitCommandError msg)).error_type = "merge_conflict") ∧
    (authKeyword (pyLower msg) = false → conflictKeyword (pyLower msg) = false →
      detachedKeyword (pyLower msg) = true →
      (handle_git_error (PyExc.gitCommandError msg)).error_type = "detached_head") ∧
    (authKeyword (pyLower msg) = false → conflictKeyword (pyLower msg) = false →
      detachedKeyword (pyLower msg) = false → nothingKeyword (pyLower msg) = true →
      (handle_git_error (PyExc.gitCommandError msg)).error_type = "nothing_to_commit") ∧
    (authKeyword (pyLower msg) = false → conflictKeyword (pyLower msg) = false →
      detachedKeyword (pyLower msg) = false → nothingKeyword (pyLower msg) = false →
      noRemoteKeyword (pyLower msg) = true →
      (handle_git_error (PyExc.gitCommandError msg)).error_type = "no_remote") ∧
    (authKeyword (pyLower msg) = false → conflictKeyword (pyLower msg) = false →
      detachedKeyword (pyLower msg) = false → nothingKeyword (pyLower msg) = false →
      noRemoteKeyword (pyLower msg) = false →
      (handle_git_error (PyExc.gitCommandError msg)).error_type = "git_command_failed") ∧
    (strContains (pyLower msg) "authentication failed" = true →
      strContains (pyLower msg) "conflict" = true →
      (handle_git_error (PyExc.gitCommandError msg)).error_type = "auth_failed") := by
  refine ⟨?_, ?_, ?_, ?_, ?_, ?_, ?_⟩ <;>
    intros <;> simp_all [handle_git_error, authKeyword]

/-- C1 witness: a concrete message containing both "authentication failed"
and "conflict" classifies as `auth_failed`. -/
theorem handle_git_error_priority_witness :
    (handle_git_error
      (PyExc.gitCommandError "Authentication failed while resolving a merge conflict")).error_type
      = "auth_failed" :=
  (handle_git_error_priority
    "Authentication failed while resolving a merge conflict").2.2.2.2.2.2
    (by decide) (by decide)

/-- C2: `handle_git_error` is total and deterministic: it is a total
function whose `error_type` always lies in the fixed nine-element taxonomy,
and two calls with identical exception type and message yield identical
`error_type`. -/
theorem handle_git_error_total (e e' : PyExc) (h : e = e') :
    (handle_git_error e).error_type ∈ errorTypes ∧
    (handle_git_error e).error_type = (handle_git_error e').error_type := by
  subst h
  refine ⟨?_, rfl⟩
  cases e with
  | invalidGitRepositoryError msg => simp [handle_git_error, errorTypes]
  | gitCommandError msg =>
    simp only [handle_git_error, errorTypes]
    split_ifs <;> simp
  | valueError msg => simp [handle_git_error, errorTypes]
  | other msg => simp [handle_git_error, errorTypes]

/-- C2 witness: evaluated at a concrete exception. -/
theorem handle_git_error_total_witness :
    (handle_git_error (PyExc.other "boom")).error_type ∈ errorTypes ∧
    (handle_git_error (PyExc.other "boom")).error_type
      = (handle_git_error (PyExc.other "boom")).error_type :=
  handle_git_error_total (PyExc.other "boom") (PyExc.other "boom") rfl

end GitMcp

namespace GitMcp

/-! ### Claims C3 and C4 -/

theorem pyStrip_eq_nil_iff (l : List Char) :
    pyStrip l = [] ↔ ∀ c ∈ l, pyIsSpace c = true := by
  unfold pyStrip
  rw [List.reverse_eq_nil_iff, List.dropWhile_eq_nil_iff]
  simp only [List.mem_reverse]
  constructor
  · intro h c hc
    rw [← List.takeWhile_append_dropWhile (p := pyIsSpace) (l := l)] at hc
    rcases List.mem_append.mp hc with h1 | h2
    · exact List.mem_takeWhile_imp h1
    · exact h c h2
  · intro h x hx
    exact h x ((List.dropWhile_sublist pyIsSpace).subset hx)

theorem hasDoubleDot_iff (l : List Char) :
    hasDoubleDot l = true ↔ ['.', '.'] <:+: l := by
  induction l with
  | nil => simp [hasDoubleDot]
  | cons c t ih =>
    cases t with
    | nil =>
      simp only [hasDoubleDot, Bool.false_eq_true, false_iff]
      intro h
      have := h.length_le
      simp at this
    | cons c2 rest =>
      constructor
      · intro h
        simp only [hasDoubleDot, Bool.or_eq_true] at h
        rcases h with hd | ht
        · have h1 : c = '.' := of_decide_eq_true (Bool.and_eq_true_iff.mp hd).1
          have h2 : c2 = '.' := of_decide_eq_true (Bool.and_eq_true_iff.mp hd).2
          subst h1
          subst h2
          exact List.infix_cons_iff.mpr (Or.inl ⟨rest, rfl⟩)
        · exact List.infix_cons_iff.mpr (Or.inr (ih.mp ht))
      · intro h
        rcases List.infix_cons_iff.mp h with hp | hi
        · rcases hp with ⟨t, ht⟩
          injection ht with e1 ht'
          injection ht' with e2 ht''
          subst e1
          subst e2
          simp [hasDoubleDot]
        · have hh := ih.mpr hi
          simp [hasDoubleDot, hh]

/-- C3: branch-name validation fails for every string that is empty or
whitespace-only, contains a whitespace character, one of the characters
`~ ^ : ? * [ ] \`, or the substring "..", and succeeds for every string
free of all of these. -/
theorem validate_branch_name_iff (s : String) :
    validate_branch_name s = Except.ok () ↔
      (s.data ≠ [] ∧ (∀ c ∈ s.data, pyIsSpace c = false ∧ c ∉ branchSpecialChars) ∧
        ¬ (['.', '.'] <:+: s.data)) := by
  unfold validate_branch_name
  split_ifs with h1 h2
  · simp only [reduceCtorEq, false_iff]
    rintro ⟨hne, hall, -⟩
    rcases Bool.or_eq_true_iff.mp h1 with he | hs
    · exact hne (List.isEmpty_iff.mp he)
    · have hsp := (pyStrip_eq_nil_iff s.data).mp (List.isEmpty_iff.mp hs)
      rcases List.exists_mem_of_ne_nil s.data hne with ⟨c, hc⟩
      have := (hall c hc).1
      rw [hsp c hc] at this
      simp at this
  · simp only [reduceCtorEq, false_iff]
    rintro ⟨hne, hall, hdd⟩
    rcases Bool.or_eq_true_iff.mp h2 with ha | hd
    · rcases List.any_eq_true.mp ha with ⟨c, hc, hbad⟩
      rcases Bool.or_eq_true_iff.mp hbad with hsp | hmem
      · have := (hall c hc).1
        rw [hsp] at this
        simp at this
      · exact (hall c hc).2 (of_decide_eq_true hmem)
    · exact hdd ((hasDoubleDot_iff s.data).mp hd)
  · have h1f : (s.data.isEmpty || (pyStrip s.data).isEmpty) = false :=
      Bool.eq_false_iff.mpr h1
    have h2f : branchInvalidSearch s.data = false := Bool.eq_false_iff.mpr h2
    rcases Bool.or_eq_false_iff.mp h1f with ⟨he, -⟩
    have h2' := Bool.or_eq_false_iff.mp h2f
    constructor
    · intro _
      refine ⟨?_, ?_, ?_⟩
      · intro hnil
        rw [hnil] at he
        simp at he
      · intro c hc
        have hany := h2'.1
        have hbad : branchBadChar c = false := by
          cases hbb : branchBadChar c with
          | false => rfl
          | true =>
            exfalso
            have hc2 : s.data.any branchBadChar = true := List.any_eq_true.mpr ⟨c, hc, hbb⟩
            rw [hc2] at hany
            simp at hany
        rcases Bool.or_eq_false_iff.mp hbad with ⟨hs1, hs2⟩
        exact ⟨hs1, of_decide_eq_false hs2⟩
      · intro hin
        have := (hasDoubleDot_iff s.data).mpr hin
        rw [this] at h2'
        simp at h2'
    · intro _
      rfl

theorem descRun_append_alnum (a : List Char) (h : ∀ c ∈ a, isLowerAlnum c = true) :
    ∀ rest, descRun (a ++ rest) true = descRun rest true := by
  induction a with
  | nil => intro rest; rfl
  | cons c t ih =>
    intro rest
    have hc : isLowerAlnum c = true := h c (List.mem_cons_self c t)
    simp only [List.cons_append, descRun, hc, if_true]
    exact ih (fun x hx => h x (List.mem_cons_of_mem c hx)) rest

theorem DescLang.run {l : List Char} (h : DescLang l) : descRun l false = true := by
  induction h with
  | seg l h1 h2 =>
    cases l with
    | nil => exact absurd rfl h1
    | cons c t =>
      have hc := h2 c (List.mem_cons_self c t)
      have ht : ∀ x ∈ t, isLowerAlnum x = true := fun x hx => h2 x (List.mem_cons_of_mem c hx)
      have happ := descRun_append_alnum t ht []
      simp only [List.append_nil] at happ
      simp [descRun, hc, happ]
  | more l r h1 h2 h3 ih =>
    cases l with
    | nil => exact absurd rfl h1
    | cons c t =>
      have hc := h2 c (List.mem_cons_self c t)
      have ht : ∀ x ∈ t, isLowerAlnum x = true := fun x hx => h2 x (List.mem_cons_of_mem c hx)
      have happ := descRun_append_alnum t ht ('-' :: r)
      have hdash : isLowerAlnum '-' = false := by decide
      simp [descRun, hc, List.cons_append, happ, hdash, ih]

theorem descRun_to_DescLang :
    ∀ n l, l.length ≤ n →
      ((descRun l false = true → DescLang l) ∧
       (descRun l true = true →
         ∀ a, a ≠ [] → (∀ c ∈ a, isLowerAlnum c = true) → DescLang (a ++ l))) := by
  intro n
  induction n with
  | zero =>
    intro l hl
    have hnil : l = [] := List.length_eq_zero.mp (Nat.le_zero.mp hl)
    subst hnil
    constructor
    · intro h; simp [descRun] at h
    · intro _ a ha h2
      simpa using DescLang.seg a ha h2
  | succ n ih =>
    intro l hl
    cases l with
    | nil =>
      constructor
      · intro h; simp [descRun] at h
      · intro _ a ha h2
        simpa using DescLang.seg a ha h2
    | cons c rest =>
      have hrest : rest.length ≤ n := by
        simpa using Nat.le_of_succ_le_succ (by simpa using hl)
      constructor
      · intro h
        by_cases hc : isLowerAlnum c = true
        · have h' : descRun rest true = true := by simpa [descRun, hc] using h
          have := (ih rest hrest).2 h' [c] (by simp) (by simpa using hc)
          simpa using this
        · exfalso
          by_cases hd : c = '-'
          · subst hd
            have hdash : isLowerAlnum '-' = false := by decide
            simp [descRun, hdash] at h
          · simp [descRun, hc, hd] at h
      · intro h a ha h2
        by_cases hc : isLowerAlnum c = true
        · have h' : descRun rest true = true := by simpa [descRun, hc] using h
          have hall : ∀ x ∈ a ++ [c], isLowerAlnum x = true := by
            intro x hx
            rcases List.mem_append.mp hx with hx | hx
            · exact h2 x hx
            · rw [List.mem_singleton.mp hx]; exact hc
          have := (ih rest hrest).2 h' (a ++ [c]) (by simp) hall
          rw [List.append_assoc] at this
          simpa using this
        · by_cases hd : c = '-'
          · have h' : descRun rest false = true := by simpa [descRun, hc, hd] using h
            have hr := (ih rest hrest).1 h'
            subst hd
            exact DescLang.more a rest ha h2 hr
          · exfalso
            simp [descRun, hc, hd] at h

theorem descMatchLang_iff (l : List Char) : descMatchLang l = true ↔ DescLang l :=
  ⟨fun h => (descRun_to_DescLang l.length l le_rfl).1 h, fun h => h.run⟩

theorem pyDescMatch_iff (l : List Char) :
    pyDescMatch l = true ↔ (DescLang l ∨ ∃ w, l = w ++ ['\n'] ∧ DescLang w) := by
  unfold pyDescMatch
  rw [Bool.or_eq_true]
  constructor
  · rintro (h | h)
    · exact Or.inl ((descMatchLang_iff l).mp h)
    · rcases Bool.and_eq_true_iff.mp h with ⟨h1, h2⟩
      have hlast : l.getLast? = some '\n' := by simpa using h1
      have hne : l ≠ [] := by
        rintro rfl
        simp at hlast
      have hg : l.getLast hne = '\n' := by
        have heq := List.getLast?_eq_getLast_of_ne_nil hne
        rw [hlast] at heq
        exact (Option.some.injEq _ _ ▸ heq).symm
      have hexp : l.dropLast ++ ['\n'] = l := by
        have := List.dropLast_append_getLast hne
        rw [hg] at this
        exact this
      exact Or.inr ⟨l.dropLast, hexp.symm, (descMatchLang_iff _).mp h2⟩
  · rintro (h | ⟨w, rfl, hw⟩)
    · exact Or.inl ((descMatchLang_iff l).mpr h)
    · right
      rw [Bool.and_eq_true]
      constructor
      · simp [List.getLast?_concat]
      · rw [List.dropLast_concat]
        exact (descMatchLang_iff w).mpr hw

/-- C4 counterexample: the code accepts the string "abc" followed by a
newline, which lies outside the language of `^[a-z0-9]+(-[a-z0-9]+)*$`,
because Python re.match with a final `$` also matches just before a
trailing newline. -/
theorem validate_description_accepts_trailing_newline :
    validate_description "abc\n" = Except.ok () ∧
      descMatchLang "abc\n".data = false := by
  constructor
  · rfl
  · rfl

/-- C4 amended: description validation succeeds exactly for the strings of
the language `[a-z0-9]+(-[a-z0-9]+)*` together with such strings followed
by one trailing newline; every other string (in particular any with an
uppercase letter or an embedded space) fails. -/
theorem validate_description_iff (s : String) :
    validate_description s = Except.ok () ↔
      (DescLang s.data ∨ ∃ w, s.data = w ++ ['\n'] ∧ DescLang w) := by
  unfold validate_description
  split_ifs with h
  · exact ⟨fun _ => (pyDescMatch_iff s.data).mp h, fun _ => rfl⟩
  · simp only [reduceCtorEq, false_iff]
    intro hr
    exact h ((pyDescMatch_iff s.data).mpr hr)

end GitMcp

namespace GitMcp

/-! ### Claims C5 and C6 -/

/-- C5: repository-handle acquisition is idempotent with respect to the
cached singleton: after a successful get_repo, a second call returns the
identical cached handle without performing discovery and leaves the
singleton unchanged; reset_repo clears the cache unconditionally and is a
total function; after a reset, the next get_repo call performs discovery
from the current working directory. -/
theorem get_repo_idempotent (w w2 : RepoWorld) (s s2 : GitClientState) (r : Repo)
    (h : (get_repo w s).result = Except.ok r) :
    ((get_repo w (get_repo w s).state).result = Except.ok r ∧
      (get_repo w (get_repo w s).state).state = (get_repo w s).state ∧
      (get_repo w (get_repo w s).state).discovered = false) ∧
    reset_repo s2 = ⟨none⟩ ∧
    ((get_repo w2 (reset_repo s2)).discovered = true ∧
      ∀ r2, w2.discover w2.cwd = some r2 →
        (get_repo w2 (reset_repo s2)).result = Except.ok r2) := by
  refine ⟨?_, rfl, ?_, ?_⟩
  · cases hs : s.repo_instance with
    | some r0 =>
      have he : get_repo w s = ⟨Except.ok r0, s, false⟩ := by
        simp [get_repo, hs]
      rw [he] at h ⊢
      injection h with h'
      subst h'
      simp [get_repo, hs]
    | none =>
      cases hd : w.discover w.cwd with
      | some r0 =>
        have he : get_repo w s = ⟨Except.ok r0, ⟨some r0⟩, true⟩ := by
          simp [get_repo, hs, hd]
        rw [he] at h ⊢
        injection h with h'
        subst h'
        simp [get_repo]
      | none =>
        exfalso
        have he : (get_repo w s).result = Except.error ("Not a git repository: " ++
            w.cwd ++ " Please run this tool from within a git repository.") := by
          simp [get_repo, hs, hd]
        rw [he] at h
        cases h
  · cases hd : w2.discover w2.cwd <;> simp [get_repo, reset_repo, hd]
  · intro r2 h2
    simp [get_repo, reset_repo, h2]

/-- C5 witness: concrete worlds exercising the cache hit, the reset, and
the rediscovery after the reset. -/
theorem get_repo_idempotent_witness :
    ((get_repo ⟨"/work", fun _ => some ⟨"/repo", 0⟩⟩
        ((get_repo ⟨"/work", fun _ => some ⟨"/repo", 0⟩⟩ ⟨none⟩).state)).result
          = Except.ok ⟨"/repo", 0⟩ ∧
      (get_repo ⟨"/work", fun _ => some ⟨"/repo", 0⟩⟩
        ((get_repo ⟨"/work", fun _ => some ⟨"/repo", 0⟩⟩ ⟨none⟩).state)).state
          = (get_repo ⟨"/work", fun _ => some ⟨"/repo", 0⟩⟩ ⟨none⟩).state ∧
      (get_repo ⟨"/work", fun _ => some ⟨"/repo", 0⟩⟩
        ((get_repo ⟨"/work", fun _ => some ⟨"/repo", 0⟩⟩ ⟨none⟩).state)).discovered
          = false) ∧
    reset_repo ⟨some ⟨"/stale", 1⟩⟩ = ⟨none⟩ ∧
    ((get_repo ⟨"/elsewhere", fun _ => some ⟨"/other", 2⟩⟩
        (reset_repo ⟨some ⟨"/stale", 1⟩⟩)).discovered = true ∧
      ∀ r2, (fun _ => some (⟨"/other", 2⟩ : Repo)) "/elsewhere" = some r2 →
        (get_repo ⟨"/elsewhere", fun _ => some ⟨"/other", 2⟩⟩
          (reset_repo ⟨some ⟨"/stale", 1⟩⟩)).result = Except.ok r2) :=
  get_repo_idempotent ⟨"/work", fun _ => some ⟨"/repo", 0⟩⟩
    ⟨"/elsewhere", fun _ => some ⟨"/other", 2⟩⟩ ⟨none⟩ ⟨some ⟨"/stale", 1⟩⟩
    ⟨"/repo", 0⟩ rfl

/-- C6 counterexample: for a rename entry both paths are present; the code
keeps the old (a) path, while the claim prescribes the new (b) path. -/
theorem files_changed_prefers_old_path :
    files_changed [⟨some "old.txt", some "new.txt"⟩] = ["old.txt"] ∧
      files_changed_claim [⟨some "old.txt", some "new.txt"⟩] = ["new.txt"] ∧
      files_changed [⟨some "old.txt", some "new.txt"⟩] ≠
        files_changed_claim [⟨some "old.txt", some "new.txt"⟩] := by
  refine ⟨rfl, rfl, ?_⟩
  decide

/-- C6 amended: the files_changed result is a duplicate-free set of paths
whose members are exactly the truthy per-entry choices taking each diff
entry's old (a) path and falling back to the new (b) path only when the
old path is absent or empty. -/
theorem files_changed_mem_iff (diff : List DiffEntry) (p : String) :
    (files_changed diff).Nodup ∧
      (p ∈ files_changed diff ↔
        ∃ d ∈ diff, pyOr d.a_path d.b_path = some p ∧ p.data ≠ []) := by
  constructor
  · exact List.nodup_dedup _
  · rw [files_changed, List.mem_dedup, List.mem_filterMap]
    constructor
    · rintro ⟨d, hd, hp⟩
      refine ⟨d, hd, ?_⟩
      unfold entryPath at hp
      split_ifs at hp with ht
      refine ⟨hp, ?_⟩
      rw [hp] at ht
      simpa [pyTruthy, List.isEmpty_iff] using ht
    · rintro ⟨d, hd, hp, hne⟩
      refine ⟨d, hd, ?_⟩
      have ht : pyTruthy (pyOr d.a_path d.b_path) = true := by
        rw [hp]
        cases hpe : p.data with
        | nil => exact absurd hpe hne
        | cons a t => simp [pyTruthy, hpe]
      unfold entryPath
      rw [if_pos ht]
      exact hp

end GitMcp

namespace GitMcp

/-! ### Claims C7 and C8 -/

theorem git_pull_trace_no_abort (w : PullWorld) (remote : String) (branch : Option String) :
    ((git_pull w remote branch).2).all (fun a => !isAbortAction a) = true := by
  unfold git_pull
  dsimp only
  repeat' split
  all_goals rfl

/-- C7 counterexample: a conflict raised inside git_pull is re-raised
without any abort attempt: the action trace of the call is just the pull
itself, containing no abort. -/
theorem git_pull_conflict_no_abort :
    (git_pull ⟨Except.ok (), Except.ok "feature", true, "a1", false,
        Except.error "Merge conflict in file.txt", "a1", 0, []⟩ "origin" none).2 =
      [GitAction.pull] ∧
    ((git_pull ⟨Except.ok (), Except.ok "feature", true, "a1", false,
        Except.error "Merge conflict in file.txt", "a1", 0, []⟩ "origin" none).2).all
      (fun a => !isAbortAction a) = true ∧
    (git_pull ⟨Except.ok (), Except.ok "feature", true, "a1", false,
        Except.error "Merge conflict in file.txt", "a1", 0, []⟩ "origin" none).1 =
      Except.error "Merge conflict detected. Resolve conflicts manually, then stage and commit the resolution." :=
  ⟨rfl, rfl, rfl⟩

/-- C7 amended: during git_sync_with_main, a merge/rebase failure whose
message contains "conflict" or "merge" (case-insensitively) performs
exactly one best-effort abort of the in-progress merge/rebase before the
conflict error is raised, and the raised error is the same whether the
abort itself fails or succeeds (abort failures are swallowed); git_pull,
by contrast, never performs an abort. -/
theorem git_sync_conflict_abort (w : SyncWorld) (mb b strategy emsg : String)
    (hs : strategy = "merge" ∨ strategy = "rebase")
    (hrepo : w.repoResult = Except.ok ())
    (hcb : w.currentBranch = Except.ok b)
    (hne : b ≠ mb)
    (hdirty : w.isDirty = false)
    (hfetch : w.fetchResult = Except.ok ())
    (hcommits : w.commitsToAdd ≠ some 0)
    (hmerge : w.mergeResult = Except.error emsg)
    (hkw : strContains (pyLower emsg) "conflict" = true ∨
      strContains (pyLower emsg) "merge" = true) :
    (git_sync_with_main w mb strategy).2 =
      [GitAction.fetch,
        if strategy = "merge" then GitAction.merge else GitAction.rebase,
        if strategy = "merge" then GitAction.mergeAbort w.abortFails
          else GitAction.rebaseAbort w.abortFails] ∧
    (git_sync_with_main w mb strategy).1 =
      Except.error ((if strategy = "merge" then "Merge" else "Rebase") ++
        " conflict detected. Resolve conflicts manually, then stage and commit the resolution.") ∧
    (git_sync_with_main { w with abortFails := true } mb strategy).1 =
      (git_sync_with_main { w with abortFails := false } mb strategy).1 ∧
    ∀ (wp : PullWorld) (remote : String) (branch : Option String),
      ((git_pull wp remote branch).2).all (fun a => !isAbortAction a) = true := by
  have hkwb : (strContains (pyLower emsg) "conflict" ||
      strContains (pyLower emsg) "merge") = true := Bool.or_eq_true_iff.mpr hkw
  refine ⟨?_, ?_, ?_, fun wp remote branch => git_pull_trace_no_abort wp remote branch⟩ <;>
    rcases hs with rfl | rfl <;>
      simp [git_sync_with_main, hrepo, hcb, hne, hdirty, hfetch, hcommits, hmerge, hkwb]

/-- C7 witness: a concrete conflicting merge during sync, with the pull
conjunct instantiated at a concrete pull world. -/
theorem git_sync_conflict_abort_witness :
    (git_sync_with_main ⟨Except.ok (), Except.ok "feature", false, "s0", Except.ok (),
        some 3, Except.error "CONFLICT (content): Merge conflict in a.txt", "s0",
        none, none, false⟩ "main" "merge").2 =
      [GitAction.fetch,
        if "merge" = "merge" then GitAction.merge else GitAction.rebase,
        if "merge" = "merge" then GitAction.mergeAbort false
          else GitAction.rebaseAbort false] ∧
    (git_sync_with_main ⟨Except.ok (), Except.ok "feature", false, "s0", Except.ok (),
        some 3, Except.error "CONFLICT (content): Merge conflict in a.txt", "s0",
        none, none, false⟩ "main" "merge").1 =
      Except.error ((if "merge" = "merge" then "Merge" else "Rebase") ++
        " conflict detected. Resolve conflicts manually, then stage and commit the resolution.") ∧
    (git_sync_with_main ⟨Except.ok (), Except.ok "feature", false, "s0", Except.ok (),
        some 3, Except.error "CONFLICT (content): Merge conflict in a.txt", "s0",
        none, none, true⟩ "main" "merge").1 =
      (git_sync_with_main ⟨Except.ok (), Except.ok "feature", false, "s0", Except.ok (),
        some 3, Except.error "CONFLICT (content): Merge conflict in a.txt", "s0",
        none, none, false⟩ "main" "merge").1 ∧
    ((git_pull ⟨Except.ok (), Except.ok "dev", true, "p0", false, Except.ok (), "p0",
        0, []⟩ "origin" none).2).all (fun a => !isAbortAction a) = true := by
  have h := git_sync_conflict_abort
    ⟨Except.ok (), Except.ok "feature", false, "s0", Except.ok (),
      some 3, Except.error "CONFLICT (content): Merge conflict in a.txt", "s0",
      none, none, false⟩
    "main" "feature" "merge" "CONFLICT (content): Merge conflict in a.txt"
    (Or.inl rfl) rfl rfl (by decide) rfl rfl (by decide) rfl (Or.inl rfl)
  exact ⟨h.1, h.2.1, h.2.2.1,
    h.2.2.2 ⟨Except.ok (), Except.ok "dev", true, "p0", false, Except.ok (), "p0", 0, []⟩
      "origin" none⟩

/-- C8: with a valid strategy and a non-detached HEAD, git_sync_with_main
raises before performing any git action (in particular before the fetch)
when the current branch equals the target main branch, and likewise when
the working tree is dirty: the result is an error and the action trace is
empty, leaving the repository untouched. -/
theorem git_sync_precondition_raises (w : SyncWorld) (mb b strategy : String)
    (hs : strategy = "merge" ∨ strategy = "rebase")
    (hrepo : w.repoResult = Except.ok ())
    (hcb : w.currentBranch = Except.ok b)
    (hpre : b = mb ∨ w.isDirty = true) :
    (∃ m, (git_sync_with_main w mb strategy).1 = Except.error m) ∧
    (git_sync_with_main w mb strategy).2 = [] := by
  by_cases hbm : b = mb
  · refine ⟨⟨"Already on " ++ q mb ++
      " branch. Use git_pull() instead, or checkout a feature branch first.", ?_⟩, ?_⟩ <;>
      rcases hs with rfl | rfl <;> simp [git_sync_with_main, hrepo, hcb, hbm]
  · rcases hpre with h | hd
    · exact absurd h hbm
    · refine ⟨⟨"Cannot sync with uncommitted changes. Commit or stash changes first.", ?_⟩,
        ?_⟩ <;>
        rcases hs with rfl | rfl <;>
          simp [git_sync_with_main, hrepo, hcb, hbm, hd]

/-- C8 witness: invoking sync while on the main branch with a concrete
world. -/
theorem git_sync_precondition_raises_witness :
    (∃ m, (git_sync_with_main ⟨Except.ok (), Except.ok "main", false, "s0", Except.ok (),
        some 2, Except.ok (), "s1", some [], some 2, false⟩ "main" "merge").1 =
      Except.error m) ∧
    (git_sync_with_main ⟨Except.ok (), Except.ok "main", false, "s0", Except.ok (),
        some 2, Except.ok (), "s1", some [], some 2, false⟩ "main" "merge").2 = [] :=
  git_sync_precondition_raises
    ⟨Except.ok (), Except.ok "main", false, "s0", Except.ok (),
      some 2, Except.ok (), "s1", some [], some 2, false⟩
    "main" "main" "merge" (Or.inl rfl) rfl rfl (Or.inl rfl)

end GitMcp

namespace GitMcp

/-! ### Claims C9 and C10 -/

theorem reachFuel_mono (g : CommitGraph) :
    ∀ f1 f2 c t, f1 ≤ f2 → reachFuel g f1 c t = true → reachFuel g f2 c t = true := by
  intro f1
  induction f1 with
  | zero =>
    intro f2 c t _ h
    simp [reachFuel] at h
  | succ f ih =>
    intro f2 c t hle h
    cases f2 with
    | zero => exact absurd hle (by omega)
    | succ f2 =>
      simp only [reachFuel, Bool.or_eq_true, beq_iff_eq] at h ⊢
      rcases h with h | h
      · exact Or.inl h
      · right
        rcases List.any_eq_true.mp h with ⟨p, hp, hr⟩
        exact List.any_eq_true.mpr ⟨p, hp, ih f2 p t (by omega) hr⟩

theorem reachFuel_sound (g : CommitGraph) :
    ∀ fuel c t, reachFuel g fuel c t = true → Reaches g c t := by
  intro fuel
  induction fuel with
  | zero =>
    intro c t h
    simp [reachFuel] at h
  | succ f ih =>
    intro c t h
    simp only [reachFuel, Bool.or_eq_true, beq_iff_eq] at h
    rcases h with rfl | h
    · exact Relation.ReflTransGen.refl
    · rcases List.any_eq_true.mp h with ⟨p, hp, hr⟩
      exact Relation.ReflTransGen.head hp (ih p t hr)

theorem wellFormed_parents (g : CommitGraph) (hwf : wellFormed g = true) :
    ∀ c, c < g.n → ∀ p ∈ g.parents c, p < c := by
  intro c hc p hp
  have h1 := List.all_eq_true.mp hwf c (List.mem_range.mpr hc)
  have h2 := List.all_eq_true.mp h1 p hp
  exact of_decide_eq_true h2

theorem reachFuel_complete (g : CommitGraph) (hwf : wellFormed g = true) :
    ∀ c t, c < g.n → Reaches g c t → reachFuel g (c + 1) c t = true := by
  intro c t hc hr
  revert hc
  induction hr using Relation.ReflTransGen.head_induction_on with
  | refl =>
    intro _
    simp [reachFuel]
  | head hstep htail ih =>
    rename_i a c'
    intro ha
    have hca : c' < a := wellFormed_parents g hwf a ha c' hstep
    have hcn : c' < g.n := lt_trans hca ha
    have h1 : reachFuel g a c' t = true :=
      reachFuel_mono g (c' + 1) a c' t (by omega) (ih hcn)
    simp only [reachFuel, Bool.or_eq_true]
    right
    exact List.any_eq_true.mpr ⟨c', hstep, h1⟩

theorem reach_iff_Reaches (g : CommitGraph) (hwf : wellFormed g = true)
    (r : Nat) (hr : r < g.n) (c : Nat) :
    reach g r c = true ↔ Reaches g r c := by
  constructor
  · exact fun h => reachFuel_sound g g.n r c h
  · intro h
    exact reachFuel_mono g (r + 1) g.n r c (by omega) (reachFuel_complete g hwf r c hr h)

theorem length_filter_range (n : Nat) (p : Nat → Bool) :
    ((List.range n).filter p).length = ((Finset.range n).filter (fun c => p c = true)).card := by
  induction n with
  | zero => rfl
  | succ m ih =>
    rw [List.range_succ, List.filter_append, List.length_append, Finset.range_succ,
      Finset.filter_insert]
    by_cases hp : p m = true
    · rw [if_pos hp, Finset.card_insert_of_not_mem (by simp)]
      simp [hp, ih]
    · rw [if_neg hp]
      simp [hp, ih]

theorem iter_commits_range_card (g : CommitGraph) (excl incl : Nat) :
    (iter_commits_range g excl incl).length = (reachSet g incl \ reachSet g excl).card := by
  rw [iter_commits_range, length_filter_range]
  congr 1
  ext c
  simp only [Finset.mem_filter, Finset.mem_sdiff, Finset.mem_range, reachSet,
    Bool.and_eq_true_iff, Bool.not_eq_true]
  constructor
  · rintro ⟨hlt, h1, h2⟩
    exact ⟨⟨hlt, h1⟩, fun hx => by rw [hx.2] at h2; cases h2⟩
  · rintro ⟨⟨hlt, h1⟩, h2⟩
    refine ⟨hlt, h1, ?_⟩
    cases hx : reach g excl c with
    | false => rfl
    | true => exact absurd ⟨hlt, hx⟩ h2

/-- C9: the ahead count is the number of commits reachable from the local
ref but not the remote ref, the behind count the converse (with `reach`
agreeing with declarative parent-relation reachability on well-formed
graphs); the counts are symmetric under swapping the two refs, and for two
branches whose reachable sets intersect exactly in the reachable set of a
common root, each count equals the number of commits unique to its side
(that side's reachable commits minus the shared ones). -/
theorem count_commits_ahead_behind_correct (g : CommitGraph) (A B root : Nat)
    (hwf : wellFormed g = true) (hA : A < g.n)
    (hroot : reachSet g A ∩ reachSet g B = reachSet g root) :
    (∀ c, reach g A c = true ↔ Reaches g A c) ∧
    (_count_commits_ahead_behind g (some A) (some B)).1 =
      (reachSet g A \ reachSet g B).card ∧
    (_count_commits_ahead_behind g (some A) (some B)).2 =
      (reachSet g B \ reachSet g A).card ∧
    (∀ x y : Option Nat,
      _count_commits_ahead_behind g x y =
        Prod.swap (_count_commits_ahead_behind g y x)) ∧
    (_count_commits_ahead_behind g (some A) (some B)).1 =
      (reachSet g A).card - (reachSet g root).card ∧
    (_count_commits_ahead_behind g (some A) (some B)).2 =
      (reachSet g B).card - (reachSet g root).card := by
  have hsub1 : reachSet g root ⊆ reachSet g A := by
    rw [← hroot]
    exact Finset.inter_subset_left
  have hsub2 : reachSet g root ⊆ reachSet g B := by
    rw [← hroot]
    exact Finset.inter_subset_right
  have hc1 : (_count_commits_ahead_behind g (some A) (some B)).1 =
      (reachSet g A \ reachSet g B).card := iter_commits_range_card g B A
  have hc2 : (_count_commits_ahead_behind g (some A) (some B)).2 =
      (reachSet g B \ reachSet g A).card := iter_commits_range_card g A B
  refine ⟨fun c => reach_iff_Reaches g hwf A hA c, hc1, hc2, ?_, ?_, ?_⟩
  · intro x y
    cases x <;> cases y <;> rfl
  · rw [hc1, ← Finset.sdiff_inter_self_left, hroot, Finset.card_sdiff hsub1]
  · rw [hc2, ← Finset.sdiff_inter_self_left, Finset.inter_comm, hroot,
      Finset.card_sdiff hsub2]

/-- C9 witness: the two-branch graph with a shared root commit, evaluated
concretely. -/
theorem count_commits_ahead_behind_correct_witness :
    (reach witnessGraph 2 0 = true ↔ Reaches witnessGraph 2 0) ∧
    (_count_commits_ahead_behind witnessGraph (some 2) (some 4)).1 =
      (reachSet witnessGraph 2 \ reachSet witnessGraph 4).card ∧
    (_count_commits_ahead_behind witnessGraph (some 2) (some 4)).2 =
      (reachSet witnessGraph 4 \ reachSet witnessGraph 2).card ∧
    _count_commits_ahead_behind witnessGraph (some 2) (some 4) =
      Prod.swap (_count_commits_ahead_behind witnessGraph (some 4) (some 2)) ∧
    (_count_commits_ahead_behind witnessGraph (some 2) (some 4)).1 =
      (reachSet witnessGraph 2).card - (reachSet witnessGraph 0).card ∧
    (_count_commits_ahead_behind witnessGraph (some 2) (some 4)).2 =
      (reachSet witnessGraph 4).card - (reachSet witnessGraph 0).card := by
  have h := count_commits_ahead_behind_correct witnessGraph 2 4 0 (by decide) (by decide)
    (by decide)
  exact ⟨h.1 0, h.2.1, h.2.2.1, h.2.2.2.1 (some 2) (some 4), h.2.2.2.2.1, h.2.2.2.2.2⟩

/-- C10: git_commit never uses the cached singleton repository handle: its
result is independent of the singleton state, the state passes through
unchanged, and a prior reset_repo has no effect on its behaviour. -/
theorem git_commit_frame (s1 s2 : GitClientState) (w : CommitWorld)
    (type message : String) (files : Option (List String)) (skip_hooks : Bool) :
    (git_commit_st s1 w type message files skip_hooks).1 =
      (git_commit_st s2 w type message files skip_hooks).1 ∧
    (git_commit_st s1 w type message files skip_hooks).2 = s1 ∧
    (git_commit_st (reset_repo s1) w type message files skip_hooks).1 =
      (git_commit_st s1 w type message files skip_hooks).1 :=
  ⟨rfl, rfl, rfl⟩

end GitMcp
